import Mathlib

/-!
Verification of the CC-MCP hierarchical context store and keyword
extraction engine (`src/context_store.py`, `src/keyword_extraction.py`)
against their natural-language specification.

Embedding conventions:
* Python `datetime` instants are abstract: we model them as `Nat` values;
  `datetime.isoformat` / `datetime.fromisoformat` are modelled by an
  injective rendering into strings together with its partial inverse
  (`Instant.isoformat` / `Instant.fromisoformat`), which round-trips
  exactly, as the Python pair does on `isoformat` output, and rejects
  non-timestamp strings with `none`, as `fromisoformat` does by raising
  `ValueError`.
* JSON values are the inductive `Json`; `json.loads` applied to the
  snapshot string is modelled by an `Option Json` input to
  `import_state` (`none` = `json.JSONDecodeError`, raised before any
  mutation), and `json.dumps` by producing the `Json` value itself
  (Python's dumps/loads pair is lossless on these documents).
* Keyword scores are Python floats used only as opaque payload by the
  store; the store embedding carries them as `ℚ`.  The extraction
  engine computes with them (`math.log`); there they are modelled as `ℝ`.
* Methods mutating `self` become functions returning the new state.
-/

/-- JSON values, as produced by Python's `json` module on this program's
documents (object member order is the insertion order Python preserves). -/
inductive Json where
  | null : Json
  | bool (b : Bool) : Json
  | num (q : ℚ) : Json
  | str (s : String) : Json
  | arr (elems : List Json) : Json
  | obj (members : List (String × Json)) : Json

/-- Python truthiness (`if core_data:`) restricted to JSON values:
`None`, `False`, `0`, `""`, `[]` and `\x7b\x7d` are falsy. -/
def Json.truthy : Json → Bool
  | .null => false
  | .bool b => b
  | .num q => q != 0
  | .str s => s != ""
  | .arr [] => false
  | .arr (_ :: _) => true
  | .obj [] => false
  | .obj (_ :: _) => true

/-- Python `dict.get(key, default)` on a JSON object: the value under the
first matching key, or the default.  Divergence: on a non-object value
Python's `state.get` raises an uncaught `AttributeError` (the `except`
clause in `import_state` catches only
`JSONDecodeError`/`KeyError`/`ValueError`); returning the default here
stands in for that crash, so no theorem below may rely on this function's
value at a non-object. -/
def Json.get : Json → String → Json → Json
  | .obj members, key, dflt =>
    match members.find? (fun kv => kv.1 == key) with
    | some kv => kv.2
    | none => dflt
  | _, _, dflt => dflt

/-- Abstract instants standing for Python `datetime` values. -/
abbrev Instant := Nat

/-- Modelled `datetime.isoformat`: an injective rendering of an instant. -/
def Instant.isoformat (t : Instant) : String :=
  String.mk (List.replicate t 'T')

/-- Modelled `datetime.fromisoformat`: the partial inverse of
`Instant.isoformat`; `none` stands for the `ValueError` Python raises on a
string that is not a rendered timestamp. -/
def Instant.fromisoformat (s : String) : Option Instant :=
  if s.data.all (fun c => c == 'T') then some s.data.length else none

theorem Instant.fromisoformat_isoformat (t : Instant) :
    Instant.fromisoformat (Instant.isoformat t) = some t := by
  simp [Instant.fromisoformat, Instant.isoformat]

/-- One extracted keyword, the Python dict
`\x7b"keyword": w, "score": s\x7d` of `keyword_extraction.py`. -/
structure KwEntry where
  keyword : String
  score : ℚ
deriving DecidableEq

/-- `context_store.Message`: a single conversation message. -/
structure Message where
  content : String
  role : String
  timestamp : Instant
  intent_labels : List String
deriving DecidableEq

/-- `context_store.ContextItem`: content retained in the long-lived tiers,
with its extracted keywords. -/
structure ContextItem where
  content : String
  keywords : List KwEntry
  timestamp : Instant
  intent_labels : List String
deriving DecidableEq

/-- The state of `context_store.HierarchicalContextStore`. -/
structure HierarchicalContextStore where
  core_context : Option ContextItem
  evolving_context : List ContextItem
  turn_context : List Message
  max_turn_context : Nat
deriving DecidableEq

namespace HierarchicalContextStore

/-- `HierarchicalContextStore.__init__`: empty tiers, `max_turn_context = 6`. -/
def init : HierarchicalContextStore :=
  { core_context := none, evolving_context := [], turn_context := [],
    max_turn_context := 6 }

/-- Python `l[-k:]`, including the `k = 0` corner where `l[-0:]` is all
of `l`. -/
def pyTailSlice (l : List α) (k : Nat) : List α :=
  if k = 0 then l else l.drop (l.length - k)

/-- `_trim_turn_context`: when the turn context exceeds `max_turn_context`,
keep only the `max_turn_context` most recent messages. -/
def trim_turn_context (turn : List Message) (maxT : Nat) : List Message :=
  if maxT < turn.length then pyTailSlice turn maxT else turn

/-- Arguments of one `store_message` call (with the `datetime.now()` value
made explicit; the code's `keywords` default is `None` = `none`). -/
structure MsgIn where
  content : String
  intent_labels : List String
  role : String
  keywords : Option (List KwEntry)
  now : Instant
deriving DecidableEq

/-- The `Message` a call appends to the turn context. -/
def MsgIn.toMessage (c : MsgIn) : Message :=
  { content := c.content, role := c.role, timestamp := c.now,
    intent_labels := c.intent_labels }

/-- The `ContextItem` a call writes to the core or evolving tier
(`keywords or []` maps the `None` default to `[]`). -/
def MsgIn.toContextItem (c : MsgIn) : ContextItem :=
  { content := c.content, keywords := c.keywords.getD [],
    timestamp := c.now, intent_labels := c.intent_labels }

/-- Does the call route to the core tier
(`role == "user" and "PROBLEM_DEFINITION" in intent_labels`)? -/
def MsgIn.isPD (c : MsgIn) : Bool :=
  c.role == "user" && c.intent_labels.contains "PROBLEM_DEFINITION"

/-- Does the call route to the evolving tier (`role == "user"` and a
`CONSTRAINT_ADDITION` or `REFINEMENT` label)? -/
def MsgIn.isCR (c : MsgIn) : Bool :=
  c.role == "user" &&
    (c.intent_labels.contains "CONSTRAINT_ADDITION" ||
     c.intent_labels.contains "REFINEMENT")

/-- `store_message`: append to the turn context and trim; then, for user
messages only, replace the core item on a `PROBLEM_DEFINITION` label and
append to the evolving tier on a `CONSTRAINT_ADDITION`/`REFINEMENT` label. -/
def store_message (s : HierarchicalContextStore) (c : MsgIn) :
    HierarchicalContextStore :=
  let turn' := trim_turn_context (s.turn_context ++ [c.toMessage]) s.max_turn_context
  let core' := if c.isPD then some c.toContextItem else s.core_context
  let evolving' :=
    if c.isCR then s.evolving_context ++ [c.toContextItem] else s.evolving_context
  { s with
    turn_context := turn',
    core_context := core',
    evolving_context := evolving' }

/-- A sequence of `store_message` calls, oldest first. -/
def applyCalls (s : HierarchicalContextStore) (calls : List MsgIn) :
    HierarchicalContextStore :=
  calls.foldl store_message s

/-- Python `str.strip()`: whitespace removed from both ends. -/
def pyStrip (s : String) : String :=
  String.mk (((s.data.dropWhile Char.isWhitespace).reverse.dropWhile
    Char.isWhitespace).reverse)

/-- The dictionary `get_context_summary` returns. -/
structure ContextSummary where
  core_problem : Option String
  evolving_items : List String
  recent_conversation : String
  core_keywords : List KwEntry
  evolving_keywords : List KwEntry
deriving DecidableEq

/-- `get_context_summary`: core problem text, evolving item texts, the last
4 turn messages formatted one `"role: content"` per line (stripped), and
the keyword lists of the core item and of all evolving items. -/
def get_context_summary (s : HierarchicalContextStore) : ContextSummary :=
  let recent := (pyTailSlice s.turn_context 4).foldl
    (fun acc m => acc ++ m.role ++ ": " ++ m.content ++ "\n") ""
  { core_problem := s.core_context.map (fun c => c.content)
    evolving_items := s.evolving_context.map (fun it => it.content)
    recent_conversation := pyStrip recent
    core_keywords :=
      match s.core_context with
      | none => []
      | some c => c.keywords
    evolving_keywords := (s.evolving_context.map (fun it => it.keywords)).flatten }

/-- The dictionary `get_stats` returns. -/
structure Stats where
  has_core_problem : Bool
  evolving_items_count : Nat
  recent_messages_count : Nat
  total_keywords : Nat
deriving DecidableEq

/-- `get_stats`: presence of a core problem, tier sizes, and the summary's
total keyword count. -/
def get_stats (s : HierarchicalContextStore) : Stats :=
  { has_core_problem := s.core_context.isSome
    evolving_items_count := s.evolving_context.length
    recent_messages_count := s.turn_context.length
    total_keywords := (get_context_summary s).core_keywords.length +
      (get_context_summary s).evolving_keywords.length }

/-- One keyword dict as `export_state` serializes it. -/
def kwToJson (k : KwEntry) : Json :=
  .obj [("keyword", .str k.keyword), ("score", .num k.score)]

/-- A `ContextItem` as `export_state` serializes it. -/
def itemToJson (it : ContextItem) : Json :=
  .obj [("content", .str it.content),
        ("keywords", .arr (it.keywords.map kwToJson)),
        ("timestamp", .str it.timestamp.isoformat),
        ("intent_labels", .arr (it.intent_labels.map Json.str))]

/-- A turn `Message` as `export_state` serializes it. -/
def msgToJson (m : Message) : Json :=
  .obj [("content", .str m.content),
        ("role", .str m.role),
        ("timestamp", .str m.timestamp.isoformat),
        ("intent_labels", .arr (m.intent_labels.map Json.str))]

/-- `export_state`: the snapshot document — a nullable core item, the
evolving items in order, and the turn messages in order (`json.dumps`
of this value is the string the method returns). -/
def export_state (s : HierarchicalContextStore) : Json :=
  .obj [("core_context",
          match s.core_context with
          | none => Json.null
          | some it => itemToJson it),
        ("evolving_context", .arr (s.evolving_context.map itemToJson)),
        ("turn_context", .arr (s.turn_context.map msgToJson))]

/-- Python `d["key"]` on a JSON object: `none` models the `KeyError` /
`TypeError` the subscript raises when the key or object shape is absent. -/
def dictItem (j : Json) (key : String) : Option Json :=
  match j with
  | .obj members => (members.find? (fun kv => kv.1 == key)).map (fun kv => kv.2)
  | _ => none

/-- A JSON string payload.  `import_state` checks only key presence and
timestamp parsability; the embedding additionally types the string-valued
fields with the only shapes this program ever writes into a snapshot. -/
def decodeStr : Json → Option String
  | .str s => some s
  | _ => none

/-- A serialized keyword dict, shaped as `export_state` writes it. -/
def decodeKw : Json → Option KwEntry
  | .obj [("keyword", .str w), ("score", .num q)] => some { keyword := w, score := q }
  | _ => none

/-- A serialized keyword list, element by element. -/
def decodeKwList : List Json → Option (List KwEntry)
  | [] => some []
  | j :: js =>
    match decodeKw j, decodeKwList js with
    | some k, some ks => some (k :: ks)
    | _, _ => none

/-- A serialized string list (the `intent_labels` payload). -/
def decodeStrList : List Json → Option (List String)
  | [] => some []
  | j :: js =>
    match decodeStr j, decodeStrList js with
    | some x, some xs => some (x :: xs)
    | _, _ => none

/-- Rebuild one `ContextItem` from its snapshot dict: the required keys
must be present and the timestamp must parse (`KeyError` / `ValueError`
are modelled by `none`); the item is only produced whole, as the Python
constructor call evaluates all fields before any assignment happens.
Divergence: the embedding additionally types the payloads (content a
string, keywords a list of keyword/score dicts, labels a list of
strings); the Python dataclass stores these fields unvalidated, so a
snapshot with, say, `keywords: 42` imports successfully in the source but
is rejected here.  Theorems below therefore use this decoder only where
it agrees with the source: on export images and on concrete samples whose
only flaw is a missing key or an unparsable timestamp string. -/
def decodeContextItem (j : Json) : Option ContextItem := do
  let c ← dictItem j "content" >>= decodeStr
  let kws ←
    match dictItem j "keywords" with
    | some (.arr xs) => decodeKwList xs
    | _ => none
  let tsStr ← dictItem j "timestamp" >>= decodeStr
  let ts ← Instant.fromisoformat tsStr
  let labs ←
    match dictItem j "intent_labels" with
    | some (.arr xs) => decodeStrList xs
    | _ => none
  return { content := c, keywords := kws, timestamp := ts, intent_labels := labs }

/-- Rebuild one turn `Message` from its snapshot dict. -/
def decodeMessage (j : Json) : Option Message := do
  let c ← dictItem j "content" >>= decodeStr
  let r ← dictItem j "role" >>= decodeStr
  let tsStr ← dictItem j "timestamp" >>= decodeStr
  let ts ← Instant.fromisoformat tsStr
  let labs ←
    match dictItem j "intent_labels" with
    | some (.arr xs) => decodeStrList xs
    | _ => none
  return { content := c, role := r, timestamp := ts, intent_labels := labs }

/-- The evolving-context import loop: items are appended one by one, so a
failure partway keeps every item decoded before it (flag `false`). -/
def decodeItemsPartial : List Json → Bool × List ContextItem
  | [] => (true, [])
  | j :: js =>
    match decodeContextItem j with
    | none => (false, [])
    | some it =>
      let r := decodeItemsPartial js
      (r.1, it :: r.2)

/-- The turn-context import loop, same shape as `decodeItemsPartial`. -/
def decodeMsgsPartial : List Json → Bool × List Message
  | [] => (true, [])
  | j :: js =>
    match decodeMessage j with
    | none => (false, [])
    | some m =>
      let r := decodeMsgsPartial js
      (r.1, m :: r.2)

/-- One tier's list value: the loop body over `state.get(key, [])`.  A
non-list value makes the Python `for` raise after the tier was already
reset, modelled as failure with no items. -/
def decodeTierItems : Json → Bool × List ContextItem
  | .arr xs => decodeItemsPartial xs
  | _ => (false, [])

/-- Same as `decodeTierItems` for the turn tier. -/
def decodeTierMsgs : Json → Bool × List Message
  | .arr xs => decodeMsgsPartial xs
  | _ => (false, [])

/-- `import_state`.  Input `none` models a string `json.loads` rejects:
the `JSONDecodeError` is caught before anything was written.  On a parsed
value the method mutates as it walks the document — core first (set to
`None` on a falsy `core_context`), then the evolving list is reset and
refilled item by item, then the turn list — and a failure partway
(modelled by the decoders' `none`) returns `False` with every mutation
made so far kept.  Divergence: the source's uncaught-exception paths (a
top-level non-object, a truthy non-dict `core_context`, a non-list tier
value — `AttributeError`/`TypeError` escape the `except` clause and crash
the caller) are collapsed here into plain flag returns; no theorem below
evaluates this function on such inputs. -/
def import_state (s : HierarchicalContextStore) (json_state : Option Json) :
    Bool × HierarchicalContextStore :=
  match json_state with
  | none => (false, s)
  | some state =>
    let core_data := state.get "core_context" Json.null
    match (if core_data.truthy then (decodeContextItem core_data).map some
           else some none) with
    | none => (false, s)
    | some core' =>
      let s₁ := { s with core_context := core' }
      let evr := decodeTierItems (state.get "evolving_context" (Json.arr []))
      let s₂ := { s₁ with evolving_context := evr.2 }
      if evr.1 then
        let tr := decodeTierMsgs (state.get "turn_context" (Json.arr []))
        let s₃ := { s₂ with turn_context := tr.2 }
        (tr.1, s₃)
      else (false, s₂)

/-- The member names of a JSON object, in order (empty for non-objects). -/
def topKeys (j : Json) : List String :=
  match j with
  | .obj members => members.map (fun kv => kv.1)
  | _ => []


/-- `clear_all`: all three tiers reset (the cap is untouched). -/
def clear_all (s : HierarchicalContextStore) : HierarchicalContextStore :=
  { s with
    core_context := none,
    evolving_context := [],
    turn_context := [] }

end HierarchicalContextStore

mutual

/-- Does a JSON document contain an object member named `key`, at any
depth?  (Used to state what a snapshot does and does not carry.) -/
def Json.hasKeyDeep (key : String) : Json → Bool
  | .arr elems => Json.hasKeyDeepList key elems
  | .obj members => Json.hasKeyDeepMembers key members
  | _ => false

/-- `Json.hasKeyDeep` over an array's elements. -/
def Json.hasKeyDeepList (key : String) : List Json → Bool
  | [] => false
  | j :: js => Json.hasKeyDeep key j || Json.hasKeyDeepList key js

/-- `Json.hasKeyDeep` over an object's members. -/
def Json.hasKeyDeepMembers (key : String) : List (String × Json) → Bool
  | [] => false
  | (k, j) :: kvs =>
    k == key || Json.hasKeyDeep key j || Json.hasKeyDeepMembers key kvs

end

/-- Modelled from the spec: its claimed snapshot shape has a turn field
holding "the ordered role-tagged messages plus the configured
`max_turns` value", i.e. a `max_turns` member somewhere under the
snapshot's turn field. -/
def specClaimedTurnFieldCarriesMax (j : Json) : Bool :=
  Json.hasKeyDeep "max_turns" (j.get "turn_context" Json.null)

namespace KeywordExtractionEngine

/-- The engine's mutable state: the document corpus, the per-term document
frequencies (`defaultdict(int)`, here an association list read through
`dfGet`), and the document count. -/
structure EngineState where
  document_corpus : List String
  document_frequency : List (String × Nat)
  total_documents : Nat
deriving DecidableEq

/-- `KeywordExtractionEngine.__init__`: empty corpus statistics. -/
def init : EngineState :=
  { document_corpus := [], document_frequency := [], total_documents := 0 }

/-- `reset_corpus`: clears all statistics. -/
def reset_corpus (_e : EngineState) : EngineState :=
  { document_corpus := [], document_frequency := [], total_documents := 0 }

/-- Reading the `defaultdict`: a term's document frequency, 0 if absent. -/
def dfGet (df : List (String × Nat)) (t : String) : Nat :=
  match df.find? (fun kv => kv.1 == t) with
  | some kv => kv.2
  | none => 0

/-- `self._document_frequency[token] += 1` on the `defaultdict`. -/
def dfInc : List (String × Nat) → String → List (String × Nat)
  | [], t => [(t, 1)]
  | kv :: rest, t =>
    if kv.1 == t then (kv.1, kv.2 + 1) :: rest else kv :: dfInc rest t

/-- The stop-word set of `keyword_extraction.py` (Japanese function words
plus common English stop words), as a list. -/
def stop_words : List String :=
  ["の", "に", "は", "を", "た", "が", "で", "て", "と", "し", "れ", "さ",
   "ある", "いる", "も", "する", "から", "な", "こと", "として", "い", "や",
   "れる", "など", "なっ", "ない", "この", "ため", "その", "あっ", "よう",
   "また", "もの", "という", "あり", "まで", "られ", "なる", "へ", "か",
   "だ", "これ", "によって", "により", "おり", "より", "による", "ず",
   "なり", "られる", "において", "ば", "なかっ", "なく", "しかし",
   "について", "せ", "だっ", "その他", "ここ", "そこ", "それ", "どこ",
   "いつ", "なぜ", "どう", "どの", "どんな", "です", "ます", "である",
   "でした", "だった", "ください", "ちょっと", "ちゃん", "さん", "くん",
   "みたい", "みたいな", "っぽい", "感じ", "ような", "と思い", "と思う",
   "と思います", "けど", "でも", "ただし",
   "the", "a", "an", "and", "or", "but", "in", "on", "at", "to", "for",
   "of", "with", "by", "from", "as", "is", "was", "are", "were", "be",
   "been", "have", "has", "had", "do", "does", "did", "will", "would",
   "could", "should", "may", "might", "can", "this", "that", "these",
   "those", "i", "you", "he", "she", "it", "we", "they", "me", "him",
   "her", "us", "them", "my", "your", "his", "its", "our", "their"]

/-- One character of the regex class
`[぀-ゟ゠-ヿ一-龯a-zA-Z]` (hiragana, katakana, CJK
ideographs, Latin letters). -/
def isWordChar (c : Char) : Bool :=
  (0x3040 ≤ c.toNat && c.toNat ≤ 0x309f) ||
  (0x30a0 ≤ c.toNat && c.toNat ≤ 0x30ff) ||
  (0x4e00 ≤ c.toNat && c.toNat ≤ 0x9faf) ||
  ('a' ≤ c && c ≤ 'z') || ('A' ≤ c && c ≤ 'Z')

/-- `re.findall(r'[...]+', text)`: the maximal runs of word characters. -/
def splitRuns : List Char → List (List Char)
  | [] => []
  | c :: cs =>
    let rest := splitRuns cs
    if isWordChar c then
      match cs with
      | [] => [[c]]
      | c' :: _ =>
        if isWordChar c' then
          match rest with
          | r :: rs => (c :: r) :: rs
          | [] => [[c]]
        else [c] :: rest
    else rest

/-- `_tokenize`: lower-case (`str.lower`, modelled by `Char.toLower`; the
non-Latin ranges of the word-character class are case-less), strip, keep
the word-character runs of length ≥ 2 that are not stop words. -/
def tokenize (text : String) : List String :=
  let lowered := HierarchicalContextStore.pyStrip
    (String.mk (text.data.map Char.toLower))
  let tokens := (splitRuns lowered.data).map String.mk
  tokens.filter (fun t => 2 ≤ t.length && !(stop_words.contains t))

/-- Python's `not text.strip()`: the text is empty or all whitespace. -/
def isBlank (text : String) : Bool :=
  text.data.all Char.isWhitespace

/-- First occurrences, in order: the iteration order of a Python
dict/Counter built by inserting `l`'s elements left to right. -/
def uniqueInOrder : List String → List String
  | [] => []
  | x :: xs => x :: (uniqueInOrder xs).filter (fun y => !(y == x))

/-- `_update_corpus`: append the document, bump `total_documents`, and
bump the document frequency of each unique token once. -/
def update_corpus (e : EngineState) (text : String) : EngineState :=
  let tokens := tokenize text
  { document_corpus := e.document_corpus ++ [text]
    total_documents := e.total_documents + 1
    document_frequency := (uniqueInOrder tokens).foldl dfInc e.document_frequency }

/-- `_calculate_tf`: the Counter of `tokens` in insertion (= first
occurrence) order, each count divided by the token total.  Scores are
Python floats, modelled as reals. -/
noncomputable def calculate_tf (tokens : List String) : List (String × ℝ) :=
  if tokens.length = 0 then []
  else (uniqueInOrder tokens).map
    (fun t => (t, (tokens.count t : ℝ) / (tokens.length : ℝ)))

/-- `_calculate_idf`: 0 for an empty corpus or an unseen term, else
`ln(total_documents / document_frequency)`. -/
noncomputable def calculate_idf (e : EngineState) (token : String) : ℝ :=
  if e.total_documents = 0 then 0
  else
    let doc_freq := dfGet e.document_frequency token
    if doc_freq = 0 then 0
    else Real.log ((e.total_documents : ℝ) / (doc_freq : ℝ))

/-- The total order behind Python's stable descending sort on position-
tagged score entries: higher score first, original position first on
ties. -/
noncomputable def scoreDescLe (a b : Nat × (String × ℝ)) : Bool :=
  decide (b.2.2 < a.2.2 ∨ (a.2.2 = b.2.2 ∧ a.1 ≤ b.1))

/-- Python's `sorted(items, key=score, reverse=True)` on the entries of
the tf-idf dict: a stable descending sort.  Stability is captured by
tagging each entry with its dict position (`enum`) and sorting by the
total order `scoreDescLe`; the output is exactly the list CPython
produces. -/
noncomputable def pySortByScoreDesc (l : List (String × ℝ)) :
    List (Nat × (String × ℝ)) :=
  l.enum.mergeSort scoreDescLe

/-- `extract_keywords`: empty for blank input; otherwise the corpus is
updated first, then tf·idf scores are computed against the updated
statistics, sorted descending (stable), cut to `top_k`, and entries with
non-positive score dropped.  Returns the keyword list and the updated
engine state. -/
noncomputable def extract_keywords (e : EngineState) (text : String)
    (top_k : Nat) : List (String × ℝ) × EngineState :=
  if isBlank text then ([], e)
  else
    let e' := update_corpus e text
    let tokens := tokenize text
    if tokens.length = 0 then ([], e')
    else
      let tf_scores := calculate_tf tokens
      let tfidf_scores := tf_scores.map
        (fun p => (p.1, p.2 * calculate_idf e' p.1))
      let sorted_keywords := (pySortByScoreDesc tfidf_scores).take top_k
      ((sorted_keywords.filter (fun a => decide (0 < a.2.2))).map
        (fun a => a.2), e')

end KeywordExtractionEngine

/-! ### Sample inputs used by witnesses and counterexamples -/

namespace Samples

open HierarchicalContextStore

/-- Seven plain user messages (one more than `max_turn_context`). -/
def c3calls : List MsgIn :=
  [⟨"m1", [], "user", none, 1⟩, ⟨"m2", [], "user", none, 2⟩,
   ⟨"m3", [], "user", none, 3⟩, ⟨"m4", [], "user", none, 4⟩,
   ⟨"m5", [], "user", none, 5⟩, ⟨"m6", [], "user", none, 6⟩,
   ⟨"m7", [], "user", none, 7⟩]

/-- A store already holding a core problem definition. -/
def storeWithCore : HierarchicalContextStore :=
  { core_context := some ⟨"old problem", [], 0, ["PROBLEM_DEFINITION"]⟩,
    evolving_context := [], turn_context := [], max_turn_context := 6 }

/-- A structurally invalid snapshot: `core_context` is null and the one
evolving entry is an object missing every required field. -/
def badEvolvingSnapshot : Json :=
  Json.obj [("core_context", Json.null),
            ("evolving_context", Json.arr [Json.obj [("note", Json.str "x")]]),
            ("turn_context", Json.arr [])]

/-- A snapshot whose one evolving entry is fully shaped except that its
timestamp string does not parse (`ValueError` in the source). -/
def badTimestampSnapshot : Json :=
  Json.obj [("core_context", Json.null),
            ("evolving_context", Json.arr
              [Json.obj [("content", Json.str "c"),
                         ("keywords", Json.arr []),
                         ("timestamp", Json.str "not-a-timestamp"),
                         ("intent_labels", Json.arr [])]]),
            ("turn_context", Json.arr [])]

/-- A snapshot whose one turn entry is missing its required `role` key
(`KeyError` in the source). -/
def missingRoleSnapshot : Json :=
  Json.obj [("core_context", Json.null),
            ("evolving_context", Json.arr []),
            ("turn_context", Json.arr
              [Json.obj [("content", Json.str "x"),
                         ("timestamp", Json.str ""),
                         ("intent_labels", Json.arr [])]])]

/-- One serialized turn message (timestamp rendered from instant 0). -/
def msgJson (content : String) : Json :=
  Json.obj [("content", Json.str content), ("role", Json.str "user"),
            ("timestamp", Json.str ""), ("intent_labels", Json.arr [])]

/-- A valid snapshot whose turn list has 7 entries — one more than the
store's `max_turn_context` of 6. -/
def sevenTurnSnapshot : Json :=
  Json.obj [("core_context", Json.null),
            ("evolving_context", Json.arr []),
            ("turn_context", Json.arr
              [msgJson "t1", msgJson "t2", msgJson "t3", msgJson "t4",
               msgJson "t5", msgJson "t6", msgJson "t7"])]

/-- A store with one evolving item and one turn message, for inspecting
the exported snapshot's shape. -/
def storeForExport : HierarchicalContextStore :=
  { core_context := some ⟨"goal", [⟨"kw", 1⟩], 1, ["PROBLEM_DEFINITION"]⟩,
    evolving_context := [⟨"limit", [], 2, ["CONSTRAINT_ADDITION"]⟩],
    turn_context := [⟨"hello", "user", 3, []⟩],
    max_turn_context := 6 }

end Samples

/-! ### Theorems -/

namespace HierarchicalContextStore

theorem store_message_turn (s : HierarchicalContextStore) (c : MsgIn) :
    (store_message s c).turn_context =
      trim_turn_context (s.turn_context ++ [c.toMessage]) s.max_turn_context := rfl

theorem store_message_max (s : HierarchicalContextStore) (c : MsgIn) :
    (store_message s c).max_turn_context = s.max_turn_context := rfl

theorem store_message_core (s : HierarchicalContextStore) (c : MsgIn) :
    (store_message s c).core_context =
      if c.isPD then some c.toContextItem else s.core_context := rfl

theorem store_message_evolving (s : HierarchicalContextStore) (c : MsgIn) :
    (store_message s c).evolving_context =
      if c.isCR then s.evolving_context ++ [c.toContextItem]
      else s.evolving_context := rfl

theorem applyCalls_concat (s : HierarchicalContextStore) (calls : List MsgIn)
    (c : MsgIn) :
    applyCalls s (calls ++ [c]) = store_message (applyCalls s calls) c := by
  unfold applyCalls
  rw [List.foldl_append, List.foldl_cons, List.foldl_nil]

theorem applyCalls_max (s : HierarchicalContextStore) (calls : List MsgIn) :
    (applyCalls s calls).max_turn_context = s.max_turn_context := by
  induction calls using List.reverseRecOn with
  | nil => rfl
  | append_singleton cs c ih => rw [applyCalls_concat, store_message_max, ih]

theorem trim_turn_context_eq_rtake (l : List Message) :
    trim_turn_context l 6 = l.rtake 6 := by
  unfold trim_turn_context pyTailSlice List.rtake
  split
  · simp
  · next h =>
    have h0 : l.length - 6 = 0 := by omega
    simp [h0]

theorem rtake_append_one (k : Nat) (l : List α) (x : α) :
    (l.rtake k ++ [x]).rtake k = (l ++ [x]).rtake k := by
  cases k with
  | zero => simp
  | succ n =>
    rw [List.rtake_eq_reverse_take_reverse, List.rtake_eq_reverse_take_reverse,
      List.rtake_eq_reverse_take_reverse]
    simp [List.take_take]

theorem applyCalls_turn (calls : List MsgIn) :
    (applyCalls init calls).turn_context = (calls.map MsgIn.toMessage).rtake 6 := by
  induction calls using List.reverseRecOn with
  | nil => rfl
  | append_singleton cs c ih =>
    rw [applyCalls_concat, store_message_turn, applyCalls_max, ih,
      show init.max_turn_context = 6 from rfl,
      trim_turn_context_eq_rtake, List.map_append, List.map_cons, List.map_nil]
    exact rtake_append_one 6 (cs.map MsgIn.toMessage) c.toMessage

end HierarchicalContextStore

namespace HierarchicalContextStore

/-- C3: after `max_turns + k` stored messages (k ≥ 0) on a fresh store,
`len(turn_context) == max_turns` (= 6) and the retained entries are
exactly the most recent 6 messages in insertion order; moreover
`len(turn_context) ≤ max_turns` after every `store_message` call. -/
theorem claim_C3_turn_eviction (calls : List MsgIn) (k : Nat)
    (h : calls.length = 6 + k) :
    (applyCalls init calls).turn_context.length = 6 ∧
    (applyCalls init calls).turn_context = (calls.map MsgIn.toMessage).drop k ∧
    ∀ n : Nat, (applyCalls init (calls.take n)).turn_context.length ≤ 6 := by
  refine ⟨?_, ?_, ?_⟩
  · rw [applyCalls_turn]
    unfold List.rtake
    rw [List.length_drop, List.length_map, h]
    omega
  · rw [applyCalls_turn]
    unfold List.rtake
    rw [List.length_map, h]
    congr 1
    omega
  · intro n
    rw [applyCalls_turn]
    unfold List.rtake
    rw [List.length_drop]
    omega

/-- Witness for C3: seven messages into a fresh store leave exactly the
last six, and no prefix ever exceeds six. -/
theorem claim_C3_turn_eviction_witness :
    (applyCalls init Samples.c3calls).turn_context.length = 6 ∧
    (applyCalls init Samples.c3calls).turn_context =
      (Samples.c3calls.map MsgIn.toMessage).drop 1 ∧
    ∀ n : Nat,
      (applyCalls init (Samples.c3calls.take n)).turn_context.length ≤ 6 :=
  claim_C3_turn_eviction Samples.c3calls 1 (by rfl)

theorem applyCalls_core (s : HierarchicalContextStore) (calls : List MsgIn) :
    (applyCalls s calls).core_context =
      match (calls.filter MsgIn.isPD).getLast? with
      | some c => some c.toContextItem
      | none => s.core_context := by
  induction calls using List.reverseRecOn with
  | nil => rfl
  | append_singleton cs c ih =>
    rw [applyCalls_concat, store_message_core, List.filter_append]
    by_cases hc : c.isPD
    · simp [hc, List.getLast?_concat]
    · simp only [List.filter_cons, List.filter_nil, hc, Bool.false_eq_true,
        if_false, List.append_nil, ih]

theorem applyCalls_evolving (s : HierarchicalContextStore) (calls : List MsgIn) :
    (applyCalls s calls).evolving_context =
      s.evolving_context ++ (calls.filter MsgIn.isCR).map MsgIn.toContextItem := by
  induction calls using List.reverseRecOn with
  | nil => simp [applyCalls]
  | append_singleton cs c ih =>
    rw [applyCalls_concat, store_message_evolving, List.filter_append]
    by_cases hc : c.isCR
    · simp [hc, ih]
    · simp [hc, ih]

/-- C4: the last user-role `PROBLEM_DEFINITION` message determines the
single core item (content, keywords, labels, timestamp); with no such
message the core stays `None`; assistant messages never change the core
or evolving tiers, whatever labels they carry. -/
theorem claim_C4_core_replacement (calls : List MsgIn) :
    (∀ c : MsgIn, (calls.filter MsgIn.isPD).getLast? = some c →
      (applyCalls init calls).core_context = some c.toContextItem) ∧
    ((calls.filter MsgIn.isPD) = [] →
      (applyCalls init calls).core_context = none) ∧
    (∀ (s : HierarchicalContextStore) (c : MsgIn), c.role = "assistant" →
      (store_message s c).core_context = s.core_context ∧
      (store_message s c).evolving_context = s.evolving_context) := by
  refine ⟨?_, ?_, ?_⟩
  · intro c hc
    rw [applyCalls_core, hc]
  · intro hnil
    rw [applyCalls_core, hnil]
    rfl
  · intro s c hrole
    have hPD : c.isPD = false := by
      simp [MsgIn.isPD, hrole]
    have hCR : c.isCR = false := by
      simp [MsgIn.isCR, hrole]
    rw [store_message_core, store_message_evolving, hPD, hCR]
    simp

/-- C5: the evolving tier is exactly the user-role
`CONSTRAINT_ADDITION`/`REFINEMENT` messages, one appended item per
matching message (a message carrying both labels appends exactly one
item, which carries both labels). -/
theorem claim_C5_evolving_append (calls : List MsgIn) :
    (applyCalls init calls).evolving_context =
      (calls.filter MsgIn.isCR).map MsgIn.toContextItem ∧
    (applyCalls init calls).evolving_context.length =
      (calls.filter MsgIn.isCR).length ∧
    (∀ (s : HierarchicalContextStore) (c : MsgIn), c.role = "user" →
      "CONSTRAINT_ADDITION" ∈ c.intent_labels →
      "REFINEMENT" ∈ c.intent_labels →
      (store_message s c).evolving_context =
        s.evolving_context ++ [c.toContextItem]) := by
  refine ⟨?_, ?_, ?_⟩
  · rw [applyCalls_evolving]
    rfl
  · rw [applyCalls_evolving]
    simp [init]
  · intro s c hrole hca hrf
    have hCR : c.isCR = true := by
      simp only [MsgIn.isCR, hrole]
      simp
      exact Or.inl hca
    rw [store_message_evolving, hCR]
    simp

end HierarchicalContextStore

namespace HierarchicalContextStore

theorem decodeKw_kwToJson (k : KwEntry) : decodeKw (kwToJson k) = some k := rfl

theorem decodeKwList_map (l : List KwEntry) :
    decodeKwList (l.map kwToJson) = some l := by
  induction l with
  | nil => rfl
  | cons k ks ih => simp [decodeKwList, ih, decodeKw_kwToJson]

theorem decodeStrList_map (l : List String) :
    decodeStrList (l.map Json.str) = some l := by
  induction l with
  | nil => rfl
  | cons x xs ih => simp [decodeStrList, ih, decodeStr]

theorem decodeContextItem_itemToJson (it : ContextItem) :
    decodeContextItem (itemToJson it) = some it := by
  unfold decodeContextItem itemToJson
  simp [dictItem, decodeStr, decodeKwList_map, decodeStrList_map,
    Instant.fromisoformat_isoformat]

theorem decodeMessage_msgToJson (m : Message) :
    decodeMessage (msgToJson m) = some m := by
  unfold decodeMessage msgToJson
  simp [dictItem, decodeStr, decodeStrList_map, Instant.fromisoformat_isoformat]

theorem decodeItemsPartial_map (l : List ContextItem) :
    decodeItemsPartial (l.map itemToJson) = (true, l) := by
  induction l with
  | nil => rfl
  | cons it its ih =>
    simp [decodeItemsPartial, decodeContextItem_itemToJson, ih]

theorem decodeMsgsPartial_map (l : List Message) :
    decodeMsgsPartial (l.map msgToJson) = (true, l) := by
  induction l with
  | nil => rfl
  | cons m ms ih =>
    simp [decodeMsgsPartial, decodeMessage_msgToJson, ih]

theorem import_export (s : HierarchicalContextStore) :
    import_state s (some (export_state s)) = (true, s) := by
  have hcore : Json.get (export_state s) "core_context" Json.null =
      (match s.core_context with
       | none => Json.null
       | some it => itemToJson it) := rfl
  have hev : Json.get (export_state s) "evolving_context" (Json.arr []) =
      Json.arr (s.evolving_context.map itemToJson) := rfl
  have htn : Json.get (export_state s) "turn_context" (Json.arr []) =
      Json.arr (s.turn_context.map msgToJson) := rfl
  unfold import_state
  dsimp only
  rw [hcore, hev, htn]
  cases hc : s.core_context with
  | none =>
    simp only [Json.truthy, decodeTierItems, decodeTierMsgs,
      decodeItemsPartial_map, decodeMsgsPartial_map, if_true]
    have : ({ s with
        core_context := none,
        evolving_context := s.evolving_context,
        turn_context := s.turn_context } : HierarchicalContextStore) = s := by
      rw [← hc]
    simp [this]
  | some it =>
    rw [show (itemToJson it).truthy = true from rfl]
    simp only [if_true, decodeContextItem_itemToJson, Option.map_some,
      decodeTierItems, decodeTierMsgs, decodeItemsPartial_map,
      decodeMsgsPartial_map]
    have : ({ s with
        core_context := some it,
        evolving_context := s.evolving_context,
        turn_context := s.turn_context } : HierarchicalContextStore) = s := by
      rw [← hc]
    simp [this]

/-- C2: `import_state(export_state())` succeeds on any reachable store
state and reproduces the full state, hence an observably identical
`get_context_summary()` and `get_stats()` (all contents, keyword lists,
label lists and timestamps preserved). -/
theorem claim_C2_export_import_roundtrip (s : HierarchicalContextStore) :
    import_state s (some (export_state s)) = (true, s) ∧
    get_context_summary (import_state s (some (export_state s))).2 =
      get_context_summary s ∧
    get_stats (import_state s (some (export_state s))).2 = get_stats s := by
  refine ⟨import_export s, ?_, ?_⟩ <;> rw [import_export s]

end HierarchicalContextStore

namespace HierarchicalContextStore

/-- C1 (amended): for every store state, `import_state` returns `False`
and leaves the entire store state exactly unchanged when the snapshot
string is not valid JSON (`json.loads` fails before any write), and it
returns `False` on the claim's structurally invalid snapshot classes —
shown here on one representative of each: an evolving entry missing its
required fields, an otherwise well-shaped evolving entry whose timestamp
string does not parse, and a turn entry missing its `role` key.  But
validation is not performed before mutating, so such a failure partway
can leave partial writes behind (see the counterexample). -/
theorem claim_C1_import_malformed_amended (s : HierarchicalContextStore) :
    import_state s none = (false, s) ∧
    (import_state s (some Samples.badEvolvingSnapshot)).1 = false ∧
    (import_state s (some Samples.badTimestampSnapshot)).1 = false ∧
    (import_state s (some Samples.missingRoleSnapshot)).1 = false :=
  ⟨rfl, rfl, rfl, rfl⟩

/-- Counterexample to C1 as stated: importing a snapshot whose evolving
entry is missing its required fields returns `False`, yet the store's
core context — `some item` before the call — has already been
overwritten to `None`: a partial write. -/
theorem claim_C1_counterexample :
    (import_state Samples.storeWithCore
      (some Samples.badEvolvingSnapshot)).1 = false ∧
    Samples.storeWithCore.core_context =
      some ⟨"old problem", [], 0, ["PROBLEM_DEFINITION"]⟩ ∧
    (import_state Samples.storeWithCore
      (some Samples.badEvolvingSnapshot)).2.core_context = none := by
  refine ⟨rfl, rfl, rfl⟩

end HierarchicalContextStore

namespace HierarchicalContextStore

theorem hasKeyDeepList_map_false {β : Type _} (key : String) (f : β → Json)
    (l : List β) (hf : ∀ b, Json.hasKeyDeep key (f b) = false) :
    Json.hasKeyDeepList key (l.map f) = false := by
  induction l with
  | nil => rfl
  | cons b bs ih => simp [Json.hasKeyDeepList, hf, ih]

theorem hasKeyDeep_kwToJson (k : KwEntry) :
    Json.hasKeyDeep "max_turns" (kwToJson k) = false := rfl

theorem hasKeyDeep_strList (l : List String) :
    Json.hasKeyDeepList "max_turns" (l.map Json.str) = false :=
  hasKeyDeepList_map_false _ _ l (fun _ => rfl)

theorem hasKeyDeep_itemToJson (it : ContextItem) :
    Json.hasKeyDeep "max_turns" (itemToJson it) = false := by
  simp [itemToJson, Json.hasKeyDeep, Json.hasKeyDeepMembers,
    hasKeyDeepList_map_false "max_turns" kwToJson it.keywords
      hasKeyDeep_kwToJson,
    hasKeyDeep_strList]

theorem hasKeyDeep_msgToJson (m : Message) :
    Json.hasKeyDeep "max_turns" (msgToJson m) = false := by
  simp [msgToJson, Json.hasKeyDeep, Json.hasKeyDeepMembers, hasKeyDeep_strList]

theorem hasKeyDeep_export (s : HierarchicalContextStore) :
    Json.hasKeyDeep "max_turns" (export_state s) = false := by
  have hcore : Json.hasKeyDeep "max_turns"
      (match s.core_context with
       | none => Json.null
       | some it => itemToJson it) = false := by
    cases s.core_context with
    | none => rfl
    | some it => exact hasKeyDeep_itemToJson it
  simp [export_state, Json.hasKeyDeep, Json.hasKeyDeepMembers, hcore,
    hasKeyDeepList_map_false "max_turns" itemToJson s.evolving_context
      hasKeyDeep_itemToJson,
    hasKeyDeepList_map_false "max_turns" msgToJson s.turn_context
      hasKeyDeep_msgToJson]

/-- C9 (amended): the snapshot is a structured document with exactly
three top-level fields — a nullable core item, the ordered evolving
items, and the ordered role-tagged turn messages; the configured
`max_turns` value is NOT part of the snapshot (no `max_turns` member
anywhere in it). -/
theorem claim_C9_snapshot_format_amended (s : HierarchicalContextStore) :
    export_state s = Json.obj
      [("core_context",
         match s.core_context with
         | none => Json.null
         | some it => itemToJson it),
       ("evolving_context", Json.arr (s.evolving_context.map itemToJson)),
       ("turn_context", Json.arr (s.turn_context.map msgToJson))] ∧
    topKeys (export_state s) =
      ["core_context", "evolving_context", "turn_context"] ∧
    (∀ m ∈ s.turn_context, topKeys (msgToJson m) =
      ["content", "role", "timestamp", "intent_labels"]) ∧
    Json.hasKeyDeep "max_turns" (export_state s) = false := by
  refine ⟨rfl, rfl, ?_, hasKeyDeep_export s⟩
  intro m _
  rfl

/-- Counterexample to C9 as stated: on a concrete store the exported
snapshot's turn field is the bare message list — it does not carry the
configured `max_turns` value (6) anywhere, so the claimed turn-field
shape fails. -/
theorem claim_C9_counterexample :
    specClaimedTurnFieldCarriesMax (export_state Samples.storeForExport)
      = false ∧
    Samples.storeForExport.max_turn_context = 6 ∧
    topKeys (export_state Samples.storeForExport) =
      ["core_context", "evolving_context", "turn_context"] := by
  refine ⟨by decide, rfl, by decide⟩

/-- C10: a successful `import_state` performs no turn-context trimming —
the resulting turn context is exactly the snapshot's decoded turn list,
however long — and never changes the configured `max_turn_context`. -/
theorem claim_C10_import_no_trim (s : HierarchicalContextStore) (j : Json)
    (h : (import_state s (some j)).1 = true) :
    (import_state s (some j)).2.max_turn_context = s.max_turn_context ∧
    (import_state s (some j)).2.turn_context =
      (decodeTierMsgs (j.get "turn_context" (Json.arr []))).2 := by
  unfold import_state at h ⊢
  dsimp only at h ⊢
  cases hdec : (if (Json.get j "core_context" Json.null).truthy then
      (decodeContextItem (Json.get j "core_context" Json.null)).map some
    else some none) with
  | none =>
    rw [hdec] at h
    simp at h
  | some core' =>
    dsimp only
    by_cases hev :
        (decodeTierItems (Json.get j "evolving_context" (Json.arr []))).1 = true
    · rw [if_pos hev]
      exact ⟨rfl, rfl⟩
    · rw [hdec] at h
      dsimp only at h
      rw [if_neg hev] at h
      simp at h

/-- Witness for C10: importing a valid snapshot with seven turn entries
into a fresh store (cap 6) keeps all seven and the cap stays 6. -/
theorem claim_C10_import_no_trim_witness :
    (import_state init (some Samples.sevenTurnSnapshot)).2.max_turn_context =
      init.max_turn_context ∧
    (import_state init (some Samples.sevenTurnSnapshot)).2.turn_context =
      (decodeTierMsgs
        (Samples.sevenTurnSnapshot.get "turn_context" (Json.arr []))).2 ∧
    (import_state init (some Samples.sevenTurnSnapshot)).2.turn_context.length
      = 7 :=
  ⟨(claim_C10_import_no_trim init Samples.sevenTurnSnapshot (by rfl)).1,
   (claim_C10_import_no_trim init Samples.sevenTurnSnapshot (by rfl)).2,
   by rfl⟩

end HierarchicalContextStore

namespace KeywordExtractionEngine

theorem mem_uniqueInOrder {x : String} :
    ∀ {l : List String}, x ∈ uniqueInOrder l ↔ x ∈ l := by
  intro l
  induction l with
  | nil => simp [uniqueInOrder]
  | cons y ys ih =>
    simp only [uniqueInOrder, List.mem_cons, List.mem_filter]
    constructor
    · rintro (rfl | ⟨hx, _⟩)
      · exact Or.inl rfl
      · exact Or.inr (ih.mp hx)
    · rintro (rfl | hx)
      · exact Or.inl rfl
      · by_cases hxy : x = y
        · exact Or.inl hxy
        · exact Or.inr ⟨ih.mpr hx, by simp [hxy]⟩

theorem uniqueInOrder_nodup : ∀ l : List String, (uniqueInOrder l).Nodup := by
  intro l
  induction l with
  | nil => simp [uniqueInOrder]
  | cons y ys ih =>
    refine List.Pairwise.cons ?_ (List.Nodup.filter _ ih)
    intro b hb
    have hb2 := (List.mem_filter.mp hb).2
    simp only [Bool.not_eq_true'] at hb2
    intro hyb
    subst hyb
    simp at hb2

end KeywordExtractionEngine

namespace KeywordExtractionEngine

theorem dfGet_dfInc_self (df : List (String × Nat)) (t : String) :
    dfGet (dfInc df t) t = dfGet df t + 1 := by
  induction df with
  | nil => simp [dfInc, dfGet]
  | cons kv rest ih =>
    rcases kv with ⟨k, v⟩
    simp only [dfInc]
    by_cases h : k = t
    · subst h
      simp [dfGet, List.find?]
    · have hb : (k == t) = false := beq_eq_false_iff_ne.mpr h
      simp only [hb, Bool.false_eq_true, if_false]
      simp only [dfGet, List.find?, hb] at ih ⊢
      exact ih

theorem dfGet_dfInc_ne (df : List (String × Nat)) (t u : String)
    (h : u ≠ t) : dfGet (dfInc df t) u = dfGet df u := by
  induction df with
  | nil =>
    have hb : ((t : String) == u) = false :=
      beq_eq_false_iff_ne.mpr (fun he => h he.symm)
    simp [dfInc, dfGet, List.find?, hb]
  | cons kv rest ih =>
    rcases kv with ⟨k, v⟩
    simp only [dfInc]
    by_cases hk : k = t
    · subst hk
      have hb : (k == u) = false :=
        beq_eq_false_iff_ne.mpr (fun he => h he.symm)
      simp [dfGet, List.find?, hb]
    · have hkb : (k == t) = false := beq_eq_false_iff_ne.mpr hk
      simp only [hkb, Bool.false_eq_true, if_false]
      simp only [dfGet, List.find?] at ih ⊢
      cases hku : (k == u) with
      | true => simp [hku]
      | false => simp [hku, ih]

end KeywordExtractionEngine

namespace KeywordExtractionEngine

theorem dfGet_foldl :
    ∀ (ts : List String), ts.Nodup → ∀ (df : List (String × Nat)) (u : String),
      dfGet (ts.foldl dfInc df) u =
        dfGet df u + (if u ∈ ts then 1 else 0) := by
  intro ts
  induction ts with
  | nil => intro _ df u; simp
  | cons t ts ih =>
    intro hnd df u
    have hnd' : ts.Nodup := (List.nodup_cons.mp hnd).2
    simp only [List.foldl_cons]
    rw [ih hnd' (dfInc df t) u]
    by_cases hu : u = t
    · subst hu
      have hnotin : u ∉ ts := (List.nodup_cons.mp hnd).1
      simp [hnotin, dfGet_dfInc_self]
    · rw [dfGet_dfInc_ne df t u hu]
      simp [List.mem_cons, hu]

theorem extract_keywords_engine (e : EngineState) (text : String) (k : Nat)
    (h : isBlank text = false) :
    (extract_keywords e text k).2 = update_corpus e text := by
  unfold extract_keywords
  rw [if_neg (by simp [h])]
  dsimp only
  by_cases h0 : (tokenize text).length = 0
  · rw [if_pos h0]
  · rw [if_neg h0]

theorem update_corpus_total (e : EngineState) (text : String) :
    (update_corpus e text).total_documents = e.total_documents + 1 := rfl

theorem update_corpus_corpus (e : EngineState) (text : String) :
    (update_corpus e text).document_corpus = e.document_corpus ++ [text] := rfl

theorem update_corpus_df (e : EngineState) (text : String) (t : String) :
    dfGet (update_corpus e text).document_frequency t =
      dfGet e.document_frequency t +
        (if t ∈ uniqueInOrder (tokenize text) then 1 else 0) :=
  dfGet_foldl _ (uniqueInOrder_nodup _) _ _

/-- C7 (amended): every `extract_keywords` call whose text is not
blank/whitespace-only first treats the input as exactly one new
document — `total_documents` grows by exactly one and each unique token's
document frequency by exactly one (a token occurring several times still
adds only one); a blank input short-circuits before the corpus update
(see the counterexample). -/
theorem claim_C7_corpus_update_amended (e : EngineState) (text : String)
    (k : Nat) (t : String) (h : isBlank text = false) :
    (extract_keywords e text k).2.total_documents = e.total_documents + 1 ∧
    (extract_keywords e text k).2.document_corpus =
      e.document_corpus ++ [text] ∧
    dfGet (extract_keywords e text k).2.document_frequency t =
      dfGet e.document_frequency t +
        (if t ∈ uniqueInOrder (tokenize text) then 1 else 0) := by
  rw [extract_keywords_engine e text k h]
  exact ⟨rfl, rfl, update_corpus_df e text t⟩

/-- Witness for C7 (amended) on a fresh engine and the text
`"hello world"`, checking the token `"hello"`. -/
theorem claim_C7_corpus_update_amended_witness :
    (extract_keywords init "hello world" 5).2.total_documents =
      init.total_documents + 1 ∧
    (extract_keywords init "hello world" 5).2.document_corpus =
      init.document_corpus ++ ["hello world"] ∧
    dfGet (extract_keywords init "hello world" 5).2.document_frequency "hello"
      = dfGet init.document_frequency "hello" +
        (if "hello" ∈ uniqueInOrder (tokenize "hello world") then 1 else 0) :=
  claim_C7_corpus_update_amended init "hello world" 5 "hello" (by decide)

/-- Counterexample to C7 as stated: a whitespace-only input returns
before `_update_corpus`, so `total_documents` does not grow. -/
theorem claim_C7_counterexample :
    (extract_keywords init " " 5).2 = init ∧
    init.total_documents = 0 ∧
    ¬((extract_keywords init " " 5).2.total_documents =
      init.total_documents + 1) := by
  refine ⟨rfl, rfl, by decide⟩

end KeywordExtractionEngine

namespace KeywordExtractionEngine

theorem idf_after_first_update (text : String) :
    ∀ t ∈ tokenize text, calculate_idf (update_corpus init text) t = 0 := by
  intro t ht
  have htu : t ∈ uniqueInOrder (tokenize text) := mem_uniqueInOrder.mpr ht
  have hdf : dfGet (update_corpus init text).document_frequency t = 1 := by
    rw [update_corpus_df]
    simp [dfGet, init, htu]
  have htot : (update_corpus init text).total_documents = 1 := rfl
  unfold calculate_idf
  simp only [htot, hdf]
  norm_num

/-- C6: the very first `extract_keywords` call on a freshly constructed
or freshly reset engine returns the empty list, for every input text and
every `top_k` — the call inserts the document into the corpus before
scoring, so `document_frequency(t) == total_documents == 1` and
`idf(t) = ln 1 = 0` for every token of the input. -/
theorem claim_C6_first_call_empty (text : String) (k : Nat) :
    (extract_keywords init text k).1 = [] ∧
    (∀ e : EngineState, reset_corpus e = init) ∧
    (∀ t ∈ tokenize text,
      calculate_idf (update_corpus init text) t = 0) := by
  refine ⟨?_, fun e => rfl, idf_after_first_update text⟩
  by_cases hb : isBlank text = true
  · unfold extract_keywords
    rw [if_pos hb]
  · unfold extract_keywords
    rw [if_neg hb]
    dsimp only
    by_cases h0 : (tokenize text).length = 0
    · rw [if_pos h0]
    · rw [if_neg h0]
      dsimp only
      rw [List.map_eq_nil_iff, List.filter_eq_nil_iff]
      intro a ha
      have ha1 : a ∈ pySortByScoreDesc ((calculate_tf (tokenize text)).map
          (fun p => (p.1, p.2 * calculate_idf (update_corpus init text) p.1))) :=
        (List.take_sublist k _).subset ha
      have ha2 : a ∈ ((calculate_tf (tokenize text)).map
          (fun p => (p.1, p.2 * calculate_idf (update_corpus init text) p.1))).enum := by
        unfold pySortByScoreDesc at ha1
        exact List.mem_mergeSort.mp ha1
      have ha3 : a.2 ∈ (calculate_tf (tokenize text)).map
          (fun p => (p.1, p.2 * calculate_idf (update_corpus init text) p.1)) :=
        List.getElem?_mem (List.mem_enum_iff_getElem?.mp ha2)
      obtain ⟨p, hp, hpe⟩ := List.mem_map.mp ha3
      have hp1 : p.1 ∈ uniqueInOrder (tokenize text) := by
        unfold calculate_tf at hp
        rw [if_neg h0] at hp
        obtain ⟨t, ht, hte⟩ := List.mem_map.mp hp
        rw [← hte]
        exact ht
      have hidf := idf_after_first_update text p.1 (mem_uniqueInOrder.mp hp1)
      have hz : a.2.2 = 0 := by
        rw [← hpe]
        simp [hidf]
      simp [hz]

end KeywordExtractionEngine

namespace KeywordExtractionEngine

theorem scoreDescLe_trans (a b c : Nat × (String × ℝ))
    (hab : scoreDescLe a b = true) (hbc : scoreDescLe b c = true) :
    scoreDescLe a c = true := by
  simp only [scoreDescLe, decide_eq_true_eq] at hab hbc ⊢
  rcases hab with h1 | ⟨h1e, h1i⟩
  · rcases hbc with h2 | ⟨h2e, h2i⟩
    · exact Or.inl (lt_trans h2 h1)
    · exact Or.inl (h2e ▸ h1)
  · rcases hbc with h2 | ⟨h2e, h2i⟩
    · exact Or.inl (h1e.symm ▸ h2)
    · exact Or.inr ⟨h1e.trans h2e, le_trans h1i h2i⟩

theorem scoreDescLe_total (a b : Nat × (String × ℝ)) :
    (scoreDescLe a b || scoreDescLe b a) = true := by
  simp only [scoreDescLe, Bool.or_eq_true, decide_eq_true_eq]
  rcases lt_trichotomy a.2.2 b.2.2 with h | h | h
  · exact Or.inr (Or.inl h)
  · rcases Nat.le_total a.1 b.1 with hi | hi
    · exact Or.inl (Or.inr ⟨h, hi⟩)
    · exact Or.inr (Or.inr ⟨h.symm, hi⟩)
  · exact Or.inl (Or.inl h)

theorem uniqueInOrder_pairwise_indexOf (l : List String) :
    (uniqueInOrder l).Pairwise
      (fun a b => l.indexOf a < l.indexOf b) := by
  induction l with
  | nil => simp [uniqueInOrder]
  | cons x xs ih =>
    refine List.Pairwise.cons ?_ ?_
    · intro b hb
      have hbne : b ≠ x :=
        beq_eq_false_iff_ne.mp (by
          simpa using (List.mem_filter.mp hb).2)
      rw [List.indexOf_cons_self, List.indexOf_cons_ne xs hbne.symm]
      exact Nat.succ_pos _
    · have hsub : ((uniqueInOrder xs).filter (fun y => !(y == x))).Sublist
          (uniqueInOrder xs) := List.filter_sublist _
      have hpw := List.Pairwise.sublist hsub ih
      refine hpw.imp_of_mem ?_
      intro a b ha hb hlt
      have hane : a ≠ x :=
        beq_eq_false_iff_ne.mp (by
          simpa using (List.mem_filter.mp ha).2)
      have hbne : b ≠ x :=
        beq_eq_false_iff_ne.mp (by
          simpa using (List.mem_filter.mp hb).2)
      rw [List.indexOf_cons_ne xs hane.symm, List.indexOf_cons_ne xs hbne.symm]
      exact Nat.succ_lt_succ hlt

end KeywordExtractionEngine

namespace KeywordExtractionEngine

theorem pipeline_props (tokens : List String) (L : List (String × ℝ))
    (k : Nat) (hfst : L.map Prod.fst = uniqueInOrder tokens) :
    ((((pySortByScoreDesc L).take k).filter
        (fun a => decide (0 < a.2.2))).map (fun a => a.2)).length ≤ k ∧
    (∀ p ∈ (((pySortByScoreDesc L).take k).filter
        (fun a => decide (0 < a.2.2))).map (fun a => a.2), 0 < p.2) ∧
    ((((pySortByScoreDesc L).take k).filter
        (fun a => decide (0 < a.2.2))).map (fun a => a.2)).Pairwise
      (fun a b => b.2 ≤ a.2) ∧
    ((((pySortByScoreDesc L).take k).filter
        (fun a => decide (0 < a.2.2))).map (fun a => a.2)).Pairwise
      (fun a b => a.2 = b.2 →
        tokens.indexOf a.1 < tokens.indexOf b.1) := by
  have hps : pySortByScoreDesc L = L.enum.mergeSort scoreDescLe := rfl
  rw [hps]
  set F := ((L.enum.mergeSort scoreDescLe).take k).filter
    (fun a => decide (0 < a.2.2)) with hF
  have hsubF : F.Sublist (L.enum.mergeSort scoreDescLe) :=
    (List.filter_sublist _).trans (List.take_sublist k _)
  have hsort := List.sorted_mergeSort scoreDescLe_trans scoreDescLe_total L.enum
  have hPle : F.Pairwise (fun a b => scoreDescLe a b = true) :=
    List.Pairwise.sublist hsubF hsort
  have hperm := List.mergeSort_perm L.enum scoreDescLe
  have hndA : (L.enum.map Prod.fst).Nodup := by
    rw [List.enum_map_fst]
    exact List.nodup_range _
  have hndS : ((L.enum.mergeSort scoreDescLe).map Prod.fst).Nodup :=
    ((hperm.map Prod.fst).nodup_iff).mpr hndA
  have hndF : (F.map Prod.fst).Nodup :=
    List.Nodup.sublist (hsubF.map Prod.fst) hndS
  have hPne : F.Pairwise (fun a b => a.1 ≠ b.1) := List.pairwise_map.mp hndF
  have hmemL : ∀ x ∈ F, L[x.1]? = some x.2 := fun x hx =>
    List.mem_enum_iff_getElem?.mp (List.mem_mergeSort.mp (hsubF.subset hx))
  have hfpw : List.Pairwise (fun a b => tokens.indexOf a < tokens.indexOf b)
      (L.map Prod.fst) := by
    rw [hfst]
    exact uniqueInOrder_pairwise_indexOf tokens
  have hLpw : L.Pairwise (fun p q => tokens.indexOf p.1 < tokens.indexOf q.1) :=
    (@List.pairwise_map (String × ℝ) String Prod.fst
      (fun a b => tokens.indexOf a < tokens.indexOf b) L).mp hfpw
  have hLget := List.pairwise_iff_getElem.mp hLpw
  have hidx : ∀ x ∈ F, ∀ y ∈ F, x.1 < y.1 →
      tokens.indexOf x.2.1 < tokens.indexOf y.2.1 := by
    intro x hx y hy hlt
    obtain ⟨hxlt, hxeq⟩ := List.getElem?_eq_some.mp (hmemL x hx)
    obtain ⟨hylt, hyeq⟩ := List.getElem?_eq_some.mp (hmemL y hy)
    have := hLget x.1 y.1 hxlt hylt hlt
    rw [hxeq, hyeq] at this
    exact this
  refine ⟨?_, ?_, ?_, ?_⟩
  · rw [List.length_map]
    refine le_trans (List.length_filter_le _ _) ?_
    rw [List.length_take]
    exact min_le_left _ _
  · intro p hp
    obtain ⟨x, hxF, hxe⟩ := List.mem_map.mp hp
    have hxf := (List.mem_filter.mp hxF).2
    rw [← hxe]
    simpa using hxf
  · refine List.pairwise_map.mpr (hPle.imp ?_)
    intro a b hab
    simp only [scoreDescLe, decide_eq_true_eq] at hab
    rcases hab with h | ⟨he, _⟩
    · exact le_of_lt h
    · exact le_of_eq he.symm
  · refine List.pairwise_map.mpr ((hPle.and hPne).imp_of_mem ?_)
    intro a b ha hb hR htie
    rcases hR with ⟨hle, hne⟩
    simp only [scoreDescLe, decide_eq_true_eq] at hle
    rcases hle with h | ⟨he, hi⟩
    · rw [htie] at h
      exact absurd h (lt_irrefl _)
    · exact hidx a ha b hb (lt_of_le_of_ne hi hne)

/-- C8: for every engine state, input text and `top_k`,
`extract_keywords` returns at most `top_k` entries, every returned entry
has a strictly positive score, scores are non-increasing, and entries
with equal scores appear in the order of their first occurrence in the
tokenized input (the sort is stable over the Counter's first-occurrence
insertion order). -/
theorem claim_C8_output_contract (e : EngineState) (text : String)
    (k : Nat) :
    (extract_keywords e text k).1.length ≤ k ∧
    (∀ p ∈ (extract_keywords e text k).1, 0 < p.2) ∧
    (extract_keywords e text k).1.Pairwise (fun a b => b.2 ≤ a.2) ∧
    (extract_keywords e text k).1.Pairwise (fun a b => a.2 = b.2 →
      (tokenize text).indexOf a.1 < (tokenize text).indexOf b.1) := by
  by_cases hb : isBlank text = true
  · unfold extract_keywords
    rw [if_pos hb]
    simp
  · unfold extract_keywords
    rw [if_neg hb]
    dsimp only
    by_cases h0 : (tokenize text).length = 0
    · rw [if_pos h0]
      simp
    · rw [if_neg h0]
      dsimp only
      refine pipeline_props (tokenize text) _ k ?_
      unfold calculate_tf
      rw [if_neg h0]
      simp only [List.map_map]
      show List.map (fun t => t) (uniqueInOrder (tokenize text)) =
        uniqueInOrder (tokenize text)
      simp

end KeywordExtractionEngine
